import Mathlib

/-!
Shallow embedding of the distribution fitting and selection core of the
metasynth/metasyn repository.

Embedded source files:
* `metasynth/disttree.py` — the legacy single-tree selector
  (`BaseDistributionTree.get_dist_list`, `.fit`, `.find_distribution`,
  `.from_dict`, `BuiltinDistributionTree`).
* `metasyn/var.py` — the metadata variable (`MetaVar.__init__`, `.to_dict`,
  `.from_dict`, `.draw`, `.draw_series`).
* `metasynth/var.py` — the legacy metadata variable (`MetaVar.draw`,
  `.draw_series`).

Individual distribution implementations (`metasynth/distribution/*`,
`metasyn/distribution/*`) and the provider search list (`metasyn/provider.py`)
are collaborators outside the embedded core: they are represented abstractly
by records of their observable behaviour (fit result, information criterion,
uniqueness flag, serialization, stateful drawing), universally quantified in
the theorems.  Floating point scores, probabilities and parameters are
modelled as rationals.
-/

/-- Python exception model: the exception class together with its message.
The embedded code raises ValueError and TypeError; LookupError and KeyError
are included so that statements about which class is raised can be made. -/
inductive PyError where
  | valueError : String → PyError
  | typeError : String → PyError
  | lookupError : String → PyError
  | keyError : String → PyError
deriving DecidableEq

/-- A data series (models a pandas/polars Series: its name and its values). -/
structure Series (α : Type) where
  name : String
  data : List α

/-- First index of the minimum of a list of scores: the model of
`np.argmin` (NumPy documents that in case of ties the first occurrence is
returned).  On the empty list it returns 0; the embedded code only applies
it to non-empty lists. -/
def argminIdx : List ℚ → ℕ
  | [] => 0
  | [_] => 0
  | x :: y :: rest =>
    let j := argminIdx (y :: rest)
    if x ≤ (y :: rest).getD j 0 then 0 else j + 1

/-- An index is the position the legacy selector picks from a score list:
it is in range, its score is a lower bound for every score, and every
strictly earlier index has a strictly larger score (first-minimum). -/
def firstMinAt (scores : List ℚ) (i : ℕ) : Prop :=
  i < scores.length ∧
  (∀ j < scores.length, scores.getD i 0 ≤ scores.getD j 0) ∧
  (∀ j < i, scores.getD i 0 < scores.getD j 0)

namespace Metasynth

/-- A fitted legacy distribution instance (a `BaseDistribution` object after
`fit`), as observed by `BaseDistributionTree.fit`: its class, its `is_unique`
flag and its `information_criterion` method. -/
structure DistInstance (α : Type) where
  className : String
  is_unique : Bool
  information_criterion : Series α → ℚ

/-- Fallback value used for in-range list indexing (never actually selected:
the indices used are proved to be in range). -/
def dummyInstance (α : Type) : DistInstance α :=
  ⟨"", false, fun _ => 0⟩

/-- Serialized legacy distribution record (`var_dict["distribution"]`):
`from_dict` reads its `name` entry and hands the whole record to the class. -/
structure LegacyDistDict where
  name : String
  parameters : List (String × ℚ)
deriving DecidableEq

/-- A legacy distribution class, the unit stored in a tree catalog:
`fit`, the `is_named` class method and the `from_dict` class method. -/
structure DistClass (α : Type) where
  className : String
  fit : Series α → DistInstance α
  is_named : String → Bool
  from_dict : LegacyDistDict → DistInstance α

/-- The seven catalogs of a `BaseDistributionTree`, one per variable type. -/
structure DistributionTree (α : Type) where
  discrete_distributions : List (DistClass α)
  continuous_distributions : List (DistClass α)
  categorical_distributions : List (DistClass α)
  string_distributions : List (DistClass α)
  date_distributions : List (DistClass α)
  time_distributions : List (DistClass α)
  datetime_distributions : List (DistClass α)

/-- `BaseDistributionTree.get_dist_list`: dispatch the variable type to the
catalog property named `var_type + "_distributions"`; unknown variable types
raise `ValueError`. -/
def DistributionTree.get_dist_list (t : DistributionTree α) (var_type : String) :
    Except PyError (List (DistClass α)) :=
  if var_type = "discrete" then .ok t.discrete_distributions
  else if var_type = "continuous" then .ok t.continuous_distributions
  else if var_type = "categorical" then .ok t.categorical_distributions
  else if var_type = "string" then .ok t.string_distributions
  else if var_type = "date" then .ok t.date_distributions
  else if var_type = "time" then .ok t.time_distributions
  else if var_type = "datetime" then .ok t.datetime_distributions
  else .error (.valueError ("Unknown variable type " ++ var_type ++ " detected."))

/-- `BaseDistributionTree.fit(series, var_type, unique=False)`.
Returns the selected instance together with a flag recording whether the
uniqueness-ambiguity warning was emitted.  Mirrors the source: every catalog
entry is fitted, every fitted instance is scored on the same series with
`information_criterion`, `np.argmin` picks the best; when `unique is None`
the overall best is returned (warning about uniqueness if it is unique);
otherwise instances and scores are filtered in step to those whose
`is_unique` equals `unique`, raising `ValueError` if none remain.  The `getD`
fallbacks are never used: the indices are in range (`argminIdx_lt`). -/
def DistributionTree.fit (t : DistributionTree α) (series : Series α)
    (var_type : String) (unique : Option Bool) :
    Except PyError (DistInstance α × Bool) :=
  match t.get_dist_list var_type with
  | .error e => .error e
  | .ok dist_list =>
    if dist_list.length = 0 then
      .error (.valueError ("No available distributions with variable type: " ++ var_type))
    else
      let dist_instances := dist_list.map (fun d => d.fit series)
      let dist_aic := dist_instances.map (fun d => d.information_criterion series)
      let best := dist_instances.getD (argminIdx dist_aic) (dummyInstance α)
      match unique with
      | none => .ok (best, best.is_unique)
      | some b =>
        let kept := (dist_instances.zip dist_aic).filter (fun p => p.1.is_unique == b)
        if kept.length = 0 then
          .error (.valueError ("No available distributions for variable " ++ series.name ++
            " with variable type " ++ var_type ++ " that have unique == " ++ toString b))
        else
          .ok ((kept.getD (argminIdx (kept.map Prod.snd)) (dummyInstance α, 0)).1, false)

/-- Calling `fit` without an explicit `unique` argument: the Python default
parameter value is `unique=False`. -/
def DistributionTree.fitDefault (t : DistributionTree α) (series : Series α)
    (var_type : String) : Except PyError (DistInstance α × Bool) :=
  t.fit series var_type (some false)

/-- `BaseDistributionTree.all_var_types`: the property names ending in
`_distributions` with the suffix stripped, in the order produced by `dir()`
(which sorts attribute names alphabetically). -/
def allVarTypes : List String :=
  ["categorical", "continuous", "date", "datetime", "discrete", "string", "time"]

/-- `BaseDistributionTree.find_distribution`: scan the variable types in
`all_var_types` order and each catalog in registration order, returning the
first class whose `is_named` accepts the requested name; `ValueError` if none
does.  (The source also returns an always-empty fit-kwargs dict, dropped
here.)  `get_dist_list` never fails on the members of `allVarTypes`. -/
def DistributionTree.find_distribution (t : DistributionTree α) (dist_name : String) :
    Except PyError (DistClass α) :=
  match allVarTypes.findSome? (fun vt =>
      match t.get_dist_list vt with
      | .ok l => l.find? (fun c => c.is_named dist_name)
      | .error _ => none) with
  | some c => .ok c
  | none => .error (.valueError ("Cannot find distribution with name " ++ dist_name ++ "."))

/-- `BaseDistributionTree.from_dict(var_dict)`: look up the catalog for the
stored variable type, return `cls.from_dict` of the first class named like
the stored distribution name, `ValueError` if none matches. -/
def DistributionTree.from_dict (t : DistributionTree α) (stored_type : String)
    (dist_dict : LegacyDistDict) : Except PyError (DistInstance α) :=
  match t.get_dist_list stored_type with
  | .error e => .error e
  | .ok l =>
    match l.find? (fun c => c.is_named dist_dict.name) with
    | some c => .ok (c.from_dict dist_dict)
    | none => .error (.valueError ("Cannot find distribution with name " ++ dist_dict.name ++
        " and type " ++ stored_type ++ "."))

/-- `BuiltinDistributionTree`: the built-in catalogs, parametrized by the
distribution classes themselves (their implementations live in
`metasynth.distribution.*`, outside the embedded core).  The catalog lists
reproduce the source, including `datetime_distributions` reusing
`UniformDateDistribution`. -/
def BuiltinDistributionTree (α : Type)
    (DiscreteUniformDistribution PoissonDistribution UniqueKeyDistribution
     UniformDistribution NormalDistribution LogNormalDistribution
     TruncatedNormalDistribution CatFreqDistribution RegexDistribution
     UniqueRegexDistribution FakerDistribution UniformDateDistribution
     UniformTimeDistribution : DistClass α) : DistributionTree α where
  discrete_distributions :=
    [DiscreteUniformDistribution, PoissonDistribution, UniqueKeyDistribution]
  continuous_distributions :=
    [UniformDistribution, NormalDistribution, LogNormalDistribution,
     TruncatedNormalDistribution]
  categorical_distributions := [CatFreqDistribution]
  string_distributions := [RegexDistribution, UniqueRegexDistribution, FakerDistribution]
  date_distributions := [UniformDateDistribution]
  time_distributions := [UniformTimeDistribution]
  datetime_distributions := [UniformDateDistribution]

end Metasynth

/-- Substring test over character lists (used to model the Python
`"Categorical" in self.dtype` containment test). -/
def containsSub (needle : List Char) : List Char → Bool
  | [] => needle.isEmpty
  | c :: rest => needle.isPrefixOf (c :: rest) || containsSub needle rest

/-- `"Categorical" in dtype` from `metasyn/var.py: draw_series`. -/
def containsCategorical (dtype : String) : Bool :=
  containsSub "Categorical".data dtype.data

namespace Metasyn

/-- Serialized distribution record (the metasyn `Distribution.to_dict`
output): at least `implements`, `provenance`, `class_name`, `parameters`. -/
structure DistDict where
  implements : String
  provenance : String
  class_name : String
  parameters : List (String × ℚ)
deriving DecidableEq

/-- A fitted metasyn distribution instance as `MetaVar` observes it:
its serialization and its stateful drawing interface (`S` is the internal
per-sequence sampling state, e.g. a without-replacement pool). -/
structure Distribution (V S : Type) where
  to_dict : DistDict
  draw_reset : S → S
  draw : S → V × S

/-- `metasyn.var.MetaVar` after construction.  The constructor signature
requires a distribution (no `None` default), so it is not optional here. -/
structure MetaVar (V S : Type) where
  name : String
  var_type : String
  distribution : Distribution V S
  dtype : String
  description : Option String
  prop_missing : ℚ

/-- `MetaVar.__init__`: stores the fields, then raises `ValueError` when
`prop_missing < -1e-8 or prop_missing > 1 + 1e-8`. -/
def MetaVar.make (name var_type : String) (distribution : Distribution V S)
    (dtype : String) (description : Option String) (prop_missing : ℚ) :
    Except PyError (MetaVar V S) :=
  if prop_missing < -(1 / 100000000) ∨ prop_missing > 1 + 1 / 100000000 then
    .error (.valueError ("Cannot create variable " ++ name ++
      " with proportion missing outside range [0, 1]"))
  else
    .ok ⟨name, var_type, distribution, dtype, description, prop_missing⟩

/-- A value of the serialized variable record: a string, a number, or the
nested distribution record. -/
inductive VarVal where
  | vstr : String → VarVal
  | vnum : ℚ → VarVal
  | vdist : DistDict → VarVal
deriving DecidableEq

/-- `MetaVar.to_dict`: the serialized variable record, in insertion order;
`description` is added only when one is set.  (The `distribution is None`
branch of the source is unreachable here because the constructor requires a
distribution.) -/
def MetaVar.to_dict (v : MetaVar V S) : List (String × VarVal) :=
  [("name", .vstr v.name),
   ("type", .vstr v.var_type),
   ("dtype", .vstr v.dtype),
   ("prop_missing", .vnum v.prop_missing),
   ("distribution", .vdist v.distribution.to_dict)] ++
  (match v.description with
   | some d => [("description", .vstr d)]
   | none => [])

/-- Dictionary lookup in a serialized record (first binding wins). -/
def lookupVal (d : List (String × VarVal)) (k : String) : Option VarVal :=
  (d.find? (fun p => p.1 == k)).map Prod.snd

/-- A provider catalog entry as the provider search list sees it when
deserializing: the identifier the class implements, the variable types it
can model, and its `from_dict` class method. -/
structure ProviderEntry (V S : Type) where
  implements : String
  var_types : List String
  from_dict : DistDict → Distribution V S

/-- Modelled from the spec: `DistributionProviderList.from_dict`
(`metasyn/provider.py` is not under `src/`).  Per the spec it "locates the
provider+class combination whose `implements`/alias equals the stored
distribution name and whose `var_type` matches the stored `type`, then
delegates to that class's `from_dict`. Fails with `LookupError` if no match
is found" and "MUST NOT silently substitute a different distribution". -/
def providerListFromDict (entries : List (ProviderEntry V S)) (var_type : String)
    (dist_dict : DistDict) : Except PyError (Distribution V S) :=
  match entries.find? (fun e =>
      e.implements == dist_dict.implements && e.var_types.contains var_type) with
  | some e => .ok (e.from_dict dist_dict)
  | none => .error (.lookupError ("Cannot find distribution " ++ dist_dict.implements))

/-- `MetaVar.from_dict`: reconstruct the distribution through the provider
search list, then call the constructor with the stored fields
(`description` defaults to `None` when absent). -/
def MetaVar.from_dict (entries : List (ProviderEntry V S))
    (var_dict : List (String × VarVal)) : Except PyError (MetaVar V S) :=
  match lookupVal var_dict "name", lookupVal var_dict "type",
        lookupVal var_dict "dtype", lookupVal var_dict "prop_missing",
        lookupVal var_dict "distribution" with
  | some (.vstr name), some (.vstr stored_type), some (.vstr dtype),
    some (.vnum prop_missing), some (.vdist ddict) =>
    match providerListFromDict entries stored_type ddict with
    | .error e => .error e
    | .ok dist =>
      let description := match lookupVal var_dict "description" with
        | some (.vstr d) => some d
        | _ => none
      MetaVar.make name stored_type dist dtype description prop_missing
  | _, _, _, _, _ =>
    .error (.keyError "missing or ill-typed key in variable dictionary")

/-- `MetaVar.draw`: `r` is the `np.random.rand()` sample of this call and
`s` the distribution draw state.  Below `prop_missing` the absent marker
(`none`) is returned without touching the distribution; otherwise the call
delegates to `distribution.draw()`. -/
def MetaVar.draw (v : MetaVar V S) (r : ℚ) (s : S) : Option V × S :=
  if r < v.prop_missing then (none, s)
  else
    let xs := v.distribution.draw s
    (some xs.1, xs.2)

/-- The list comprehension of `draw_series`: `draw` called `n` times,
consuming the random stream `rng` from index `i` on and threading the
distribution state. -/
def MetaVar.drawN (v : MetaVar V S) (rng : ℕ → ℚ) : ℕ → ℕ → S → List (Option V) × S
  | _, 0, s => ([], s)
  | i, n + 1, s =>
    let x := v.draw (rng i) s
    let xs := v.drawN rng (i + 1) n x.2
    (x.1 :: xs.1, xs.2)

/-- A polars series: values and the dtype polars assigns them. -/
structure PlSeries (V : Type) where
  values : List (Option V)
  dtype : String

/-- `MetaVar.draw_series(n)`: one `draw_reset`, then `n` `draw` calls, then
`pl.Series(value_list, dtype=pl.Categorical)` when the recorded dtype
contains "Categorical" and plain `pl.Series(value_list)` otherwise.  The
function `infer` models the dtype inference polars performs for a plain
`pl.Series(values)` call. -/
def MetaVar.draw_series (v : MetaVar V S) (infer : List (Option V) → String)
    (rng : ℕ → ℚ) (n : ℕ) (s : S) : PlSeries V × S :=
  let s0 := v.distribution.draw_reset s
  let r := v.drawN rng 0 n s0
  if containsCategorical v.dtype then
    (⟨r.1, "Categorical"⟩, r.2)
  else
    (⟨r.1, infer r.1⟩, r.2)

end Metasyn

namespace Metasynth

/-- The drawing interface of a legacy distribution instance, as the legacy
`MetaVar.draw`/`draw_series` observe it. -/
structure DrawDist (V S : Type) where
  draw_reset : S → S
  draw : S → V × S

/-- `metasynth.var.MetaVar` as used by `draw`/`draw_series` (the legacy
variable): `draw` raises before doing anything when no distribution is set,
so the embedding covers variables with a distribution. -/
structure MetaVarL (V S : Type) where
  name : Option String
  var_type : String
  dtype : String
  prop_missing : ℚ
  distribution : DrawDist V S

/-- Legacy `MetaVar.draw`, identical missing-value logic. -/
def MetaVarL.draw (v : MetaVarL V S) (r : ℚ) (s : S) : Option V × S :=
  if r < v.prop_missing then (none, s)
  else
    let xs := v.distribution.draw s
    (some xs.1, xs.2)

/-- The list comprehension of the legacy `draw_series`. -/
def MetaVarL.drawN (v : MetaVarL V S) (rng : ℕ → ℚ) : ℕ → ℕ → S → List (Option V) × S
  | _, 0, s => ([], s)
  | i, n + 1, s =>
    let x := v.draw (rng i) s
    let xs := v.drawN rng (i + 1) n x.2
    (x.1 :: xs.1, xs.2)

/-- A pandas series: values and dtype. -/
structure PdSeries (V : Type) where
  values : List (Option V)
  dtype : String

/-- Legacy `MetaVar.draw_series(n)`: one `draw_reset`, `n` `draw` calls,
then `pd.Series(value_list, dtype=self.dtype)` — the output is always cast
to the recorded dtype. -/
def MetaVarL.draw_series (v : MetaVarL V S) (rng : ℕ → ℚ) (n : ℕ) (s : S) :
    PdSeries V × S :=
  let s0 := v.distribution.draw_reset s
  let r := v.drawN rng 0 n s0
  (⟨r.1, v.dtype⟩, r.2)

end Metasynth

namespace Metasynth

/-- The instances `fit` produces: every catalog entry fitted to the series. -/
def fitCandidates (l : List (DistClass α)) (s : Series α) : List (DistInstance α) :=
  l.map (fun d => d.fit s)

/-- The information criteria of the fitted instances, on the same series. -/
def candidateScores (l : List (DistClass α)) (s : Series α) : List ℚ :=
  (fitCandidates l s).map (fun d => d.information_criterion s)

/-- The instance at the `np.argmin` of the scores. -/
def bestCandidate (l : List (DistClass α)) (s : Series α) : DistInstance α :=
  (fitCandidates l s).getD (argminIdx (candidateScores l s)) (dummyInstance α)

/-- The (instance, score) pairs that survive the uniqueness filter. -/
def keptPairs (l : List (DistClass α)) (s : Series α) (b : Bool) :
    List (DistInstance α × ℚ) :=
  ((fitCandidates l s).zip (candidateScores l s)).filter (fun p => p.1.is_unique == b)

end Metasynth

/-- True when the operation raised a ValueError. -/
def isValueError {β : Type} : Except PyError β → Bool
  | .error (.valueError _) => true
  | _ => false

/-- True when the operation raised a LookupError. -/
def isLookupError {β : Type} : Except PyError β → Bool
  | .error (.lookupError _) => true
  | _ => false

/-! Concrete fixtures used to evaluate the embedded operations on closed
inputs (counterexamples and witnesses). -/

/-- A series named x with no values (the embedded selector only consults the
abstract fit results, never the raw values). -/
def seriesU : Series Unit := ⟨"x", []⟩

/-- A test distribution class with a fixed uniqueness flag and a constant
information criterion. -/
def mkTestClass (nm : String) (u : Bool) (score : ℚ) : Metasynth.DistClass Unit :=
  { className := nm
    fit := fun _ => ⟨nm, u, fun _ => score⟩
    is_named := fun q => q == nm
    from_dict := fun _ => ⟨nm, u, fun _ => score⟩ }

/-- Non-unique test class scoring 5. -/
def classA : Metasynth.DistClass Unit := mkTestClass "A" false 5

/-- Unique test class scoring 1 (the best score). -/
def classB : Metasynth.DistClass Unit := mkTestClass "B" true 1

/-- Non-unique test class scoring 2. -/
def classC : Metasynth.DistClass Unit := mkTestClass "C" false 2

/-- Tree with an empty catalog for every variable type. -/
def treeEmpty : Metasynth.DistributionTree Unit := ⟨[], [], [], [], [], [], []⟩

/-- Tree whose discrete catalog is [A (non-unique, score 5), B (unique, score 1)]. -/
def treeAB : Metasynth.DistributionTree Unit :=
  { treeEmpty with discrete_distributions := [classA, classB] }

/-- Tree whose discrete catalog is [A (non-unique, score 5), C (non-unique, score 2)]. -/
def treeAC : Metasynth.DistributionTree Unit :=
  { treeEmpty with discrete_distributions := [classA, classC] }

/-- Tree whose discrete catalog holds only the unique class B. -/
def treeB : Metasynth.DistributionTree Unit :=
  { treeEmpty with discrete_distributions := [classB] }

/-- A concrete serialized distribution record. -/
def ddictNormal : Metasyn.DistDict :=
  ⟨"builtin.normal", "builtin", "NormalDistribution", [("mean", 1/2), ("sd", 2)]⟩

/-- A concrete metasyn distribution instance serializing to ddictNormal. -/
def distNormal : Metasyn.Distribution Unit Unit := ⟨ddictNormal, id, fun s => ((), s)⟩

/-- Provider entry that reconstructs distNormal from its record. -/
def entryNormal : Metasyn.ProviderEntry Unit Unit :=
  ⟨"builtin.normal", ["continuous"], fun _ => distNormal⟩

/-- A fully populated variable (with description). -/
def varAge : Metasyn.MetaVar Unit Unit :=
  ⟨"age", "continuous", distNormal, "Float64", some "age of the passenger", 1/4⟩

/-- Variable with prop_missing 0. -/
def varNoMissing : Metasyn.MetaVar Unit Unit :=
  ⟨"a", "continuous", distNormal, "Float64", none, 0⟩

/-- Variable with prop_missing 1. -/
def varAllMissing : Metasyn.MetaVar Unit Unit :=
  ⟨"b", "continuous", distNormal, "Float64", none, 1⟩

/-- Distribution instance whose state logs the calls to its draw interface. -/
def logDistribution : Metasyn.Distribution Unit (List String) :=
  ⟨⟨"builtin.uniform", "builtin", "UniformDistribution", []⟩,
   fun log => log ++ ["reset"], fun log => ((), log ++ ["draw"])⟩

/-- Variable around the logging distribution (no missing values, so every
draw reaches the distribution). -/
def traceVar : Metasyn.MetaVar Unit (List String) :=
  ⟨"x", "discrete", logDistribution, "Int64", none, 0⟩

/-- An integer distribution that always draws 5. -/
def intDist : Metasyn.Distribution ℤ Unit :=
  ⟨⟨"builtin.discrete_uniform", "builtin", "DiscreteUniformDistribution", []⟩,
   id, fun s => (5, s)⟩

/-- A variable recorded with storage type Int32 (a polars integer column). -/
def int32Var : Metasyn.MetaVar ℤ Unit := ⟨"id", "discrete", intDist, "Int32", none, 0⟩

/-- polars dtype inference for a plain pl.Series call on Python integer
values: the inferred dtype is Int64 (the polars default for integers),
whatever integer width the original column had. -/
def inferInt64 : List (Option ℤ) → String := fun _ => "Int64"

/-- Legacy variable fixture for the legacy draw_series conjuncts. -/
def legacyVar : Metasynth.MetaVarL Unit Unit :=
  ⟨some "a", "continuous", "float64", 0, ⟨id, fun s => ((), s)⟩⟩

/-! ### Theorems -/

theorem argminIdx_lt : ∀ (l : List ℚ), l ≠ [] → argminIdx l < l.length
  | [_], _ => by simp [argminIdx]
  | x :: y :: rest, _ => by
    have ih := argminIdx_lt (y :: rest) (by simp)
    simp only [argminIdx]
    split
    · simp
    · simpa [List.length_cons] using Nat.succ_lt_succ ih

theorem argminIdx_le :
    ∀ (l : List ℚ) (j : ℕ), j < l.length → l.getD (argminIdx l) 0 ≤ l.getD j 0
  | [x], j, hj => by
    have : j = 0 := by simpa using Nat.lt_one_iff.mp (by simpa using hj)
    subst this
    simp [argminIdx]
  | x :: y :: rest, j, hj => by
    have ih := fun (k : ℕ) (hk : k < (y :: rest).length) => argminIdx_le (y :: rest) k hk
    simp only [argminIdx]
    split
    · next hle =>
      match j with
      | 0 => simp
      | k + 1 =>
        have hk : k < (y :: rest).length := by
          simpa [List.length_cons] using Nat.lt_of_succ_lt_succ hj
        calc (x :: y :: rest).getD 0 0 = x := by simp
          _ ≤ (y :: rest).getD (argminIdx (y :: rest)) 0 := hle
          _ ≤ (y :: rest).getD k 0 := ih k hk
          _ = (x :: y :: rest).getD (k + 1) 0 := by simp
    · next hlt =>
      have hxgt : (y :: rest).getD (argminIdx (y :: rest)) 0 ≤ x :=
        le_of_lt (lt_of_not_le hlt)
      match j with
      | 0 => simpa using hxgt
      | k + 1 =>
        have hk : k < (y :: rest).length := by
          simpa [List.length_cons] using Nat.lt_of_succ_lt_succ hj
        simpa using ih k hk

theorem argminIdx_first :
    ∀ (l : List ℚ) (j : ℕ), j < argminIdx l → l.getD (argminIdx l) 0 < l.getD j 0
  | [_], j, hj => by simp [argminIdx] at hj
  | x :: y :: rest, j, hj => by
    have ih := fun (k : ℕ) (hk : k < argminIdx (y :: rest)) => argminIdx_first (y :: rest) k hk
    simp only [argminIdx] at hj ⊢
    split
    · next hle =>
      rw [if_pos hle] at hj
      exact absurd hj (Nat.not_lt_zero j)
    · next hlt =>
      rw [if_neg hlt] at hj
      have hxgt : (y :: rest).getD (argminIdx (y :: rest)) 0 < x := lt_of_not_le hlt
      match j with
      | 0 => simpa using hxgt
      | k + 1 =>
        have hk : k < argminIdx (y :: rest) := Nat.lt_of_succ_lt_succ hj
        simpa using ih k hk

theorem argminIdx_firstMinAt (l : List ℚ) (h : l ≠ []) : firstMinAt l (argminIdx l) :=
  ⟨argminIdx_lt l h, fun j hj => argminIdx_le l j hj, fun j hj => argminIdx_first l j hj⟩

theorem getD_mem_of_lt {β : Type} (l : List β) (i : ℕ) (d : β) (h : i < l.length) :
    l.getD i d ∈ l := by
  rw [List.getD_eq_getElem?_getD, List.getElem?_eq_getElem h]
  exact List.getElem_mem h

namespace Metasynth

theorem fit_none_eq (t : DistributionTree α) (s : Series α) (vt : String)
    (l : List (DistClass α)) (h : t.get_dist_list vt = .ok l) (hne : l ≠ []) :
    t.fit s vt none = .ok (bestCandidate l s, (bestCandidate l s).is_unique) := by
  simp only [DistributionTree.fit, h]
  rw [if_neg (by simpa [List.length_eq_zero] using hne)]
  rfl

theorem fit_some_eq (t : DistributionTree α) (s : Series α) (vt : String) (b : Bool)
    (l : List (DistClass α)) (h : t.get_dist_list vt = .ok l) (hne : l ≠ []) :
    t.fit s vt (some b) =
      (if (keptPairs l s b).length = 0 then
        .error (.valueError ("No available distributions for variable " ++ s.name ++
          " with variable type " ++ vt ++ " that have unique == " ++ toString b))
      else
        .ok (((keptPairs l s b).getD (argminIdx ((keptPairs l s b).map Prod.snd))
               (dummyInstance α, 0)).1, false)) := by
  simp only [DistributionTree.fit, h]
  rw [if_neg (by simpa [List.length_eq_zero] using hne)]
  rfl

theorem fit_err_of_nil (t : DistributionTree α) (s : Series α) (vt : String)
    (u : Option Bool) (h : t.get_dist_list vt = .ok []) :
    t.fit s vt u =
      .error (.valueError ("No available distributions with variable type: " ++ vt)) := by
  simp [DistributionTree.fit, h]

/-- Any successful fit with an explicit uniqueness request returns an
instance whose flag matches the request, and never warns. -/
theorem fit_some_ok_unique (t : DistributionTree α) (s : Series α) (vt : String)
    (b : Bool) (inst : DistInstance α) (w : Bool) (l : List (DistClass α))
    (h : t.get_dist_list vt = .ok l)
    (hfit : t.fit s vt (some b) = .ok (inst, w)) :
    inst.is_unique = b ∧ w = false := by
  have hne : l ≠ [] := by
    intro hl
    subst hl
    rw [fit_err_of_nil t s vt (some b) h] at hfit
    cases hfit
  rw [fit_some_eq t s vt b l h hne] at hfit
  by_cases hk : (keptPairs l s b).length = 0
  · rw [if_pos hk] at hfit
    cases hfit
  · rw [if_neg hk] at hfit
    simp only [Except.ok.injEq, Prod.mk.injEq] at hfit
    obtain ⟨h1, h2⟩ := hfit
    have hkne : keptPairs l s b ≠ [] := by
      intro h0
      exact hk (by simp [h0])
    have hj : argminIdx ((keptPairs l s b).map Prod.snd) < (keptPairs l s b).length := by
      have := argminIdx_lt ((keptPairs l s b).map Prod.snd) (by simpa using hkne)
      simpa using this
    have hmem := getD_mem_of_lt (keptPairs l s b) _ (dummyInstance α, 0) hj
    rw [keptPairs, List.mem_filter] at hmem
    have hflag := hmem.2
    rw [beq_iff_eq] at hflag
    exact ⟨h1 ▸ hflag, h2.symm⟩

/-- When no fitted candidate has the requested uniqueness flag, the filter
leaves nothing. -/
theorem keptPairs_nil_of_mismatch (l : List (DistClass α)) (s : Series α) (b : Bool)
    (hall : ∀ d ∈ l, (d.fit s).is_unique ≠ b) : keptPairs l s b = [] := by
  rw [keptPairs, List.filter_eq_nil_iff]
  intro p hp
  have hp1 := (List.of_mem_zip hp).1
  rw [fitCandidates, List.mem_map] at hp1
  obtain ⟨d, hd, hdp⟩ := hp1
  simpa [← hdp] using hall d hd

/-- The successful results of fit depend on the variable type only through
the catalog it selects (the error messages mention the type itself). -/
theorem fit_ok_congr (t : DistributionTree α) (s : Series α) (vt1 vt2 : String)
    (u : Option Bool) (l : List (DistClass α))
    (h1 : t.get_dist_list vt1 = .ok l) (h2 : t.get_dist_list vt2 = .ok l)
    (r : DistInstance α × Bool) :
    t.fit s vt1 u = .ok r ↔ t.fit s vt2 u = .ok r := by
  by_cases hne : l = []
  · subst hne
    rw [fit_err_of_nil t s vt1 u h1, fit_err_of_nil t s vt2 u h2]
    constructor <;> (intro h; cases h)
  · match u with
    | none =>
      rw [fit_none_eq t s vt1 l h1 hne, fit_none_eq t s vt2 l h2 hne]
    | some b =>
      rw [fit_some_eq t s vt1 b l h1 hne, fit_some_eq t s vt2 b l h2 hne]
      by_cases hk : (keptPairs l s b).length = 0
      · rw [if_pos hk, if_pos hk]
        constructor <;> (intro h; cases h)
      · rw [if_neg hk, if_neg hk]

end Metasynth

section ClaimTheoremsLegacy

open Metasynth

/-- C3: a fit requested with unique=True never returns an instance whose
fitted is_unique flag is false, a fit requested with unique=False never
returns one whose flag is true, and a fit requested with unique=None returns
the candidate at the first minimum of the information criteria of all fitted
candidates, regardless of its uniqueness. -/
theorem fit_uniqueness_filter_correct {α : Type} (t : DistributionTree α)
    (s : Series α) (vt : String) (l : List (DistClass α))
    (h : t.get_dist_list vt = .ok l) (hne : l ≠ []) :
    (∀ inst w, t.fit s vt (some true) = .ok (inst, w) → inst.is_unique = true) ∧
    (∀ inst w, t.fit s vt (some false) = .ok (inst, w) → inst.is_unique = false) ∧
    (t.fit s vt none = .ok (bestCandidate l s, (bestCandidate l s).is_unique) ∧
      firstMinAt (candidateScores l s) (argminIdx (candidateScores l s))) := by
  refine ⟨fun inst w hf => (fit_some_ok_unique t s vt true inst w l h hf).1,
          fun inst w hf => (fit_some_ok_unique t s vt false inst w l h hf).1,
          fit_none_eq t s vt l h hne, ?_⟩
  apply argminIdx_firstMinAt
  simpa [candidateScores, fitCandidates] using hne

/-- C3 witness at the concrete two-candidate tree [A non-unique; B unique]. -/
theorem fit_uniqueness_filter_correct_witness :
    ((treeAB.fit seriesU "discrete" (some true)).map (fun p => p.1.is_unique) =
       .ok true) ∧
    ((treeAB.fit seriesU "discrete" (some false)).map (fun p => p.1.is_unique) =
       .ok false) ∧
    (treeAB.fit seriesU "discrete" none =
       .ok (bestCandidate [classA, classB] seriesU,
            (bestCandidate [classA, classB] seriesU).is_unique)) := by
  have H := fit_uniqueness_filter_correct treeAB seriesU "discrete" [classA, classB]
    rfl (by simp)
  refine ⟨?_, ?_, H.2.2.1⟩
  · have e : treeAB.fit seriesU "discrete" (some true) = .ok (classB.fit seriesU, false) :=
      rfl
    have hu := H.1 (classB.fit seriesU) false e
    rw [e]
    simp [Except.map, hu]
  · have e : treeAB.fit seriesU "discrete" (some false) = .ok (classA.fit seriesU, false) :=
      rfl
    have hu := H.2.1 (classA.fit seriesU) false e
    rw [e]
    simp [Except.map, hu]

/-- C5: when the caller passes unique=None and the best-ranked candidate is
unique, the fit warns (flag true) and still succeeds returning that best
candidate; when the best candidate is not unique the same candidate is
returned without a warning — the warning never changes the selection and
never aborts the fit. -/
theorem fit_none_unique_warns_nonfatal {α : Type} (t : DistributionTree α)
    (s : Series α) (vt : String) (l : List (DistClass α))
    (h : t.get_dist_list vt = .ok l) (hne : l ≠ []) :
    ((bestCandidate l s).is_unique = true →
       t.fit s vt none = .ok (bestCandidate l s, true)) ∧
    ((bestCandidate l s).is_unique = false →
       t.fit s vt none = .ok (bestCandidate l s, false)) ∧
    firstMinAt (candidateScores l s) (argminIdx (candidateScores l s)) := by
  refine ⟨fun hu => ?_, fun hu => ?_, ?_⟩
  · rw [fit_none_eq t s vt l h hne, hu]
  · rw [fit_none_eq t s vt l h hne, hu]
  · apply argminIdx_firstMinAt
    simpa [candidateScores, fitCandidates] using hne

/-- C5 witness: on [A; B] the best candidate B is unique, so the fit warns
and still returns B; on [A; C] the best candidate C is not unique, so the
same fit result carries no warning. -/
theorem fit_none_unique_warns_nonfatal_witness :
    (treeAB.fit seriesU "discrete" none =
       .ok (bestCandidate [classA, classB] seriesU, true)) ∧
    (treeAC.fit seriesU "discrete" none =
       .ok (bestCandidate [classA, classC] seriesU, false)) := by
  have H1 := fit_none_unique_warns_nonfatal treeAB seriesU "discrete" [classA, classB]
    rfl (by simp)
  have H2 := fit_none_unique_warns_nonfatal treeAC seriesU "discrete" [classA, classC]
    rfl (by simp)
  exact ⟨H1.1 rfl, H2.2.1 rfl⟩

/-- C9: the legacy fit has default uniqueness argument False, not None: a
call without an explicit unique argument equals a call with unique=False, it
only ever returns candidates whose fitted is_unique flag is false, it never
emits the uniqueness-ambiguity warning (the flag is always false on
success), and it raises when every fitted candidate is unique. -/
theorem fit_default_filters_nonunique {α : Type} (t : DistributionTree α)
    (s : Series α) (vt : String) (l : List (DistClass α))
    (h : t.get_dist_list vt = .ok l) :
    (t.fitDefault s vt = t.fit s vt (some false)) ∧
    (∀ inst w, t.fitDefault s vt = .ok (inst, w) → inst.is_unique = false ∧ w = false) ∧
    (l ≠ [] → (∀ d ∈ l, (d.fit s).is_unique = true) →
       t.fitDefault s vt =
         .error (.valueError ("No available distributions for variable " ++ s.name ++
           " with variable type " ++ vt ++ " that have unique == " ++ toString false))) := by
  refine ⟨rfl, fun inst w hf => fit_some_ok_unique t s vt false inst w l h hf, ?_⟩
  intro hne hall
  have hkept : keptPairs l s false = [] :=
    keptPairs_nil_of_mismatch l s false (fun d hd => by simp [hall d hd])
  rw [DistributionTree.fitDefault, fit_some_eq t s vt false l h hne,
      if_pos (by simp [hkept])]

/-- C9 witness: on [A; B] the default call returns the non-unique A without
warning; on the all-unique catalog [B] the default call raises. -/
theorem fit_default_filters_nonunique_witness :
    (treeAB.fitDefault seriesU "discrete" = treeAB.fit seriesU "discrete" (some false)) ∧
    ((treeAB.fitDefault seriesU "discrete").map (fun p => (p.1.is_unique, p.2)) =
       .ok (false, false)) ∧
    (isValueError (treeB.fitDefault seriesU "discrete") = true) := by
  have HA := fit_default_filters_nonunique treeAB seriesU "discrete" [classA, classB] rfl
  have HB := fit_default_filters_nonunique treeB seriesU "discrete" [classB] rfl
  refine ⟨HA.1, ?_, ?_⟩
  · have e : treeAB.fitDefault seriesU "discrete" = .ok (classA.fit seriesU, false) := rfl
    have hu := HA.2.1 (classA.fit seriesU) false e
    rw [e]
    simp [Except.map, hu.1]
  · rw [HB.2.2 (by simp) ?_]
    · rfl
    · intro d hd
      rw [List.mem_singleton] at hd
      subst hd
      rfl

end ClaimTheoremsLegacy

section ClaimTheoremsLegacy2

open Metasynth

/-- C1 (amended): for every non-empty candidate list, the legacy fit fits
every candidate and computes each information criterion on the same data;
with unique=None it returns the candidate at the first minimum of all the
scores; with an explicit uniqueness constraint (the no-argument default
being unique=False) it returns the candidate at the first minimum of the
scores of the constraint-matching candidates; equal lowest scores are broken
in favour of the first-registered candidate (the firstMinAt conjuncts), and
the selection is a function of the series, catalog and constraint alone, so
fitting the same data twice with the same catalog selects the same
distribution both times. -/
theorem fit_selects_first_minimum {α : Type} (t : DistributionTree α)
    (s : Series α) (vt : String) (l : List (DistClass α))
    (h : t.get_dist_list vt = .ok l) (hne : l ≠ []) :
    ((fitCandidates l s).length = l.length ∧ (candidateScores l s).length = l.length) ∧
    (t.fit s vt none = .ok (bestCandidate l s, (bestCandidate l s).is_unique) ∧
       firstMinAt (candidateScores l s) (argminIdx (candidateScores l s))) ∧
    (∀ b, (keptPairs l s b).length ≠ 0 →
       t.fit s vt (some b) =
         .ok (((keptPairs l s b).getD (argminIdx ((keptPairs l s b).map Prod.snd))
               (dummyInstance α, 0)).1, false) ∧
       firstMinAt ((keptPairs l s b).map Prod.snd)
         (argminIdx ((keptPairs l s b).map Prod.snd))) ∧
    (∀ (u : Option Bool) (r1 r2 : Except PyError (DistInstance α × Bool)),
       t.fit s vt u = r1 → t.fit s vt u = r2 → r1 = r2) := by
  refine ⟨⟨by simp [fitCandidates], by simp [candidateScores, fitCandidates]⟩,
    ⟨fit_none_eq t s vt l h hne, ?_⟩, fun b hk => ⟨?_, ?_⟩,
    fun u r1 r2 e1 e2 => e1.symm.trans e2⟩
  · apply argminIdx_firstMinAt
    simpa [candidateScores, fitCandidates] using hne
  · rw [fit_some_eq t s vt b l h hne, if_neg hk]
  · apply argminIdx_firstMinAt
    intro h0
    rw [List.map_eq_nil_iff] at h0
    exact hk (by simp [h0])

/-- C1 witness at the concrete two-candidate tree. -/
theorem fit_selects_first_minimum_witness :
    (treeAB.fit seriesU "discrete" none =
       .ok (bestCandidate [classA, classB] seriesU,
            (bestCandidate [classA, classB] seriesU).is_unique)) ∧
    (treeAB.fit seriesU "discrete" (some false) =
       .ok (((keptPairs [classA, classB] seriesU false).getD
              (argminIdx ((keptPairs [classA, classB] seriesU false).map Prod.snd))
              (dummyInstance Unit, 0)).1, false)) := by
  have H := fit_selects_first_minimum treeAB seriesU "discrete" [classA, classB]
    rfl (by simp)
  exact ⟨H.2.1.1, (H.2.2.1 false (by decide)).1⟩

/-- C1 counterexample: with catalog [A (non-unique, score 5); B (unique,
score 1)], calling the legacy fit with no explicit unique argument (Python
default unique=False) returns A with score 5 although candidate B scored
1 < 5, so automatic fitting does not return the candidate with the lowest
information criterion. -/
theorem fit_default_not_lowest_score_cex :
    ((treeAB.fitDefault seriesU "discrete").map (fun p => p.1.className) = .ok "A") ∧
    ((treeAB.fitDefault seriesU "discrete").map
        (fun p => p.1.information_criterion seriesU) = .ok 5) ∧
    candidateScores [classA, classB] seriesU = [5, 1] ∧ (1 : ℚ) < 5 := by
  exact ⟨rfl, rfl, rfl, by norm_num⟩

/-- C4 (amended): whenever no distribution satisfies the request — a name
search with no is_named match, an automatic fit whose uniqueness filter
leaves no candidate, or a deserialization whose stored name matches no class
of the stored type — the legacy operation raises ValueError (not a Python
LookupError); the raise is the result of the operation, so no different
distribution is substituted. -/
theorem no_match_raises_value_error {α : Type} (t : DistributionTree α)
    (s : Series α) (dist_name vt stored_type : String) (b : Bool)
    (dd : LegacyDistDict) (l l2 : List (DistClass α)) :
    ((∀ vt2 l3, vt2 ∈ allVarTypes → t.get_dist_list vt2 = .ok l3 →
        ∀ c ∈ l3, c.is_named dist_name = false) →
      t.find_distribution dist_name =
        .error (.valueError ("Cannot find distribution with name " ++ dist_name ++ "."))) ∧
    (t.get_dist_list vt = .ok l → l ≠ [] → (∀ d ∈ l, (d.fit s).is_unique ≠ b) →
      t.fit s vt (some b) =
        .error (.valueError ("No available distributions for variable " ++ s.name ++
          " with variable type " ++ vt ++ " that have unique == " ++ toString b))) ∧
    (t.get_dist_list stored_type = .ok l2 → (∀ c ∈ l2, c.is_named dd.name = false) →
      t.from_dict stored_type dd =
        .error (.valueError ("Cannot find distribution with name " ++ dd.name ++
          " and type " ++ stored_type ++ "."))) := by
  refine ⟨fun hname => ?_, fun h hne hall => ?_, fun h2 hname2 => ?_⟩
  · rw [DistributionTree.find_distribution]
    have hfs : allVarTypes.findSome? (fun vt2 =>
        match t.get_dist_list vt2 with
        | .ok l3 => l3.find? (fun c => c.is_named dist_name)
        | .error _ => none) = none := by
      rw [List.findSome?_eq_none_iff]
      intro vt2 hvt2
      cases hg : t.get_dist_list vt2 with
      | error e => rfl
      | ok l3 =>
        show l3.find? (fun c => c.is_named dist_name) = none
        rw [List.find?_eq_none]
        intro c hc
        simp [hname vt2 l3 hvt2 hg c hc]
    rw [hfs]
  · have hkept : keptPairs l s b = [] :=
      keptPairs_nil_of_mismatch l s b hall
    rw [fit_some_eq t s vt b l h hne, if_pos (by simp [hkept])]
  · rw [DistributionTree.from_dict, h2]
    have hfind : l2.find? (fun c => c.is_named dd.name) = none := by
      rw [List.find?_eq_none]
      intro c hc
      simp [hname2 c hc]
    simp only [hfind]

/-- C4 witness: concrete no-match inputs for all three operations. -/
theorem no_match_raises_value_error_witness :
    (treeEmpty.find_distribution "normal" =
       .error (.valueError ("Cannot find distribution with name " ++ "normal" ++ "."))) ∧
    (treeB.fit seriesU "discrete" (some false) =
       .error (.valueError ("No available distributions for variable " ++ "x" ++
         " with variable type " ++ "discrete" ++ " that have unique == " ++
         toString false))) ∧
    (treeEmpty.from_dict "discrete" ⟨"normal", []⟩ =
       .error (.valueError ("Cannot find distribution with name " ++ "normal" ++
         " and type " ++ "discrete" ++ "."))) := by
  have H1 := no_match_raises_value_error treeEmpty seriesU "normal" "discrete" "discrete"
    false ⟨"normal", []⟩ [] []
  have H2 := no_match_raises_value_error treeB seriesU "normal" "discrete" "discrete"
    false ⟨"normal", []⟩ [classB] []
  refine ⟨H1.1 ?_, H2.2.1 rfl (by simp) ?_, H1.2.2 rfl (by simp)⟩
  · intro vt2 l3 hvt2 hg c hc
    fin_cases hvt2 <;>
    · have h3 : Except.ok ([] : List (DistClass Unit)) = Except.ok l3 := hg
      cases h3
      cases hc
  · intro d hd
    rw [List.mem_singleton] at hd
    subst hd
    decide

/-- C4 counterexample: at concrete no-match inputs, the legacy search, fit
and deserialization raise a ValueError, not a LookupError (in Python a
ValueError is not an instance of LookupError), contradicting the claim that
these failures are LookupErrors. -/
theorem no_match_not_lookup_error_cex :
    (isValueError (treeEmpty.find_distribution "normal") = true ∧
     isLookupError (treeEmpty.find_distribution "normal") = false) ∧
    (isValueError (treeB.fit seriesU "discrete" (some false)) = true ∧
     isLookupError (treeB.fit seriesU "discrete" (some false)) = false) ∧
    (isValueError (treeEmpty.from_dict "discrete" ⟨"normal", []⟩) = true ∧
     isLookupError (treeEmpty.from_dict "discrete" ⟨"normal", []⟩) = false) := by
  exact ⟨⟨rfl, rfl⟩, ⟨rfl, rfl⟩, ⟨rfl, rfl⟩⟩

/-- C10: in the builtin tree the datetime catalog is the date catalog, both
the one-element list [UniformDateDistribution], so a variable detected as
datetime is fit from exactly the same candidate list as a date variable —
the successful fit results coincide — and no datetime-specific distribution
is ever eligible. -/
theorem builtin_datetime_same_as_date {α : Type} (t : DistributionTree α)
    (DiscreteUniformDistribution PoissonDistribution UniqueKeyDistribution
     UniformDistribution NormalDistribution LogNormalDistribution
     TruncatedNormalDistribution CatFreqDistribution RegexDistribution
     UniqueRegexDistribution FakerDistribution UniformDateDistribution
     UniformTimeDistribution : DistClass α)
    (ht : t = BuiltinDistributionTree α DiscreteUniformDistribution
      PoissonDistribution UniqueKeyDistribution UniformDistribution
      NormalDistribution LogNormalDistribution TruncatedNormalDistribution
      CatFreqDistribution RegexDistribution UniqueRegexDistribution
      FakerDistribution UniformDateDistribution UniformTimeDistribution) :
    (t.get_dist_list "datetime" = t.get_dist_list "date") ∧
    (t.get_dist_list "datetime" = .ok [UniformDateDistribution]) ∧
    (∀ (s : Series α) (u : Option Bool) (r : DistInstance α × Bool),
       t.fit s "datetime" u = .ok r ↔ t.fit s "date" u = .ok r) := by
  subst ht
  exact ⟨rfl, rfl, fun s u r =>
    fit_ok_congr _ s "datetime" "date" u [UniformDateDistribution] (by rfl) (by rfl) r⟩

/-- C10 witness: the builtin tree built from concrete classes. -/
theorem builtin_datetime_same_as_date_witness :
    ((BuiltinDistributionTree Unit classA classA classB classA classA classA classA
        classA classA classB classA classC classA).get_dist_list "datetime" =
      (BuiltinDistributionTree Unit classA classA classB classA classA classA classA
        classA classA classB classA classC classA).get_dist_list "date") ∧
    ((BuiltinDistributionTree Unit classA classA classB classA classA classA classA
        classA classA classB classA classC classA).get_dist_list "datetime" =
      .ok [classC]) := by
  have H := builtin_datetime_same_as_date
    (BuiltinDistributionTree Unit classA classA classB classA classA classA classA
      classA classA classB classA classC classA)
    classA classA classB classA classA classA classA classA classA classB classA
    classC classA rfl
  exact ⟨H.1, H.2.1⟩

end ClaimTheoremsLegacy2

namespace Metasyn

theorem draw_none_iff (v : MetaVar V S) (r : ℚ) (s : S) :
    (v.draw r s).1 = none ↔ r < v.prop_missing := by
  by_cases hlt : r < v.prop_missing
  · simp [MetaVar.draw, hlt]
  · simp [MetaVar.draw, hlt]

theorem draw_delegates (v : MetaVar V S) (r : ℚ) (s : S)
    (h : ¬ r < v.prop_missing) :
    v.draw r s = (some (v.distribution.draw s).1, (v.distribution.draw s).2) := by
  simp [MetaVar.draw, h]

theorem drawN_length (v : MetaVar V S) (rng : ℕ → ℚ) :
    ∀ (n i : ℕ) (s : S), (v.drawN rng i n s).1.length = n
  | 0, _, _ => rfl
  | n + 1, i, s => by
    simp [MetaVar.drawN, drawN_length v rng n (i + 1)]

theorem drawN_not_none (v : MetaVar V S) (rng : ℕ → ℚ)
    (hpm : v.prop_missing = 0) (hr : ∀ i, 0 ≤ rng i) :
    ∀ (n i : ℕ) (s : S), ∀ x ∈ (v.drawN rng i n s).1, x ≠ none
  | 0, i, s => by simp [MetaVar.drawN]
  | n + 1, i, s => by
    intro x hx
    simp only [MetaVar.drawN, List.mem_cons] at hx
    rcases hx with hx | hx
    · subst hx
      rw [ne_eq, draw_none_iff, hpm]
      exact not_lt.mpr (hr i)
    · exact drawN_not_none v rng hpm hr n (i + 1) _ x hx

theorem drawN_all_none (v : MetaVar V S) (rng : ℕ → ℚ)
    (hpm : v.prop_missing = 1) (hr : ∀ i, rng i < 1) :
    ∀ (n i : ℕ) (s : S), ∀ x ∈ (v.drawN rng i n s).1, x = none
  | 0, i, s => by simp [MetaVar.drawN]
  | n + 1, i, s => by
    intro x hx
    simp only [MetaVar.drawN, List.mem_cons] at hx
    rcases hx with hx | hx
    · subst hx
      rw [draw_none_iff, hpm]
      exact hr i
    · exact drawN_all_none v rng hpm hr n (i + 1) _ x hx

theorem draw_series_values (v : MetaVar V S) (infer : List (Option V) → String)
    (rng : ℕ → ℚ) (n : ℕ) (s : S) :
    (v.draw_series infer rng n s).1.values =
      (v.drawN rng 0 n (v.distribution.draw_reset s)).1 := by
  by_cases h : containsCategorical v.dtype
  · simp [MetaVar.draw_series, h]
  · simp [MetaVar.draw_series, h]

end Metasyn

namespace Metasynth

theorem drawNL_length (v : MetaVarL V S) (rng : ℕ → ℚ) :
    ∀ (n i : ℕ) (s : S), (v.drawN rng i n s).1.length = n
  | 0, _, _ => rfl
  | n + 1, i, s => by
    simp [MetaVarL.drawN, drawNL_length v rng n (i + 1)]

end Metasynth

/-- On the logging variable, one batch of draws appends exactly n draw
events to the log. -/
theorem traceVar_drawN_log (rng : ℕ → ℚ) (hr : ∀ i, 0 ≤ rng i) :
    ∀ (n i : ℕ) (log : List String),
      (traceVar.drawN rng i n log).2 = log ++ List.replicate n "draw"
  | 0, i, log => by simp [Metasyn.MetaVar.drawN]
  | n + 1, i, log => by
    have hdraw : traceVar.draw (rng i) log = (some (), log ++ ["draw"]) := by
      rw [Metasyn.MetaVar.draw,
        if_neg (show ¬ rng i < traceVar.prop_missing from not_lt.mpr (hr i))]
      rfl
    simp only [Metasyn.MetaVar.drawN, hdraw,
      traceVar_drawN_log rng hr n (i + 1) (log ++ ["draw"])]
    simp [List.replicate_succ]

section ClaimTheoremsMetasyn

open Metasyn

/-- C6: draw returns the absent marker exactly when the uniform random
sample is below prop_missing, and otherwise delegates to the distribution
draw; for prop_missing 0 no draw (with a sample in [0, 1)) and no element of
draw_series is the absent marker, and for prop_missing 1 every drawn value
is the absent marker. -/
theorem draw_absent_marker_rule {V S : Type} (v : MetaVar V S) (r : ℚ)
    (s : S) (rng : ℕ → ℚ) (n : ℕ) (infer : List (Option V) → String) :
    ((v.draw r s).1 = none ↔ r < v.prop_missing) ∧
    (¬ r < v.prop_missing →
       v.draw r s = (some (v.distribution.draw s).1, (v.distribution.draw s).2)) ∧
    (v.prop_missing = 0 → 0 ≤ r → (v.draw r s).1 ≠ none) ∧
    (v.prop_missing = 0 → (∀ i, 0 ≤ rng i) →
       ∀ x ∈ (v.draw_series infer rng n s).1.values, x ≠ none) ∧
    (v.prop_missing = 1 → r < 1 → (v.draw r s).1 = none) ∧
    (v.prop_missing = 1 → (∀ i, rng i < 1) →
       ∀ x ∈ (v.draw_series infer rng n s).1.values, x = none) := by
  refine ⟨draw_none_iff v r s, draw_delegates v r s, fun hpm hr => ?_,
    fun hpm hr => ?_, fun hpm hr => ?_, fun hpm hr => ?_⟩
  · rw [ne_eq, draw_none_iff, hpm]
    exact not_lt.mpr hr
  · rw [draw_series_values]
    exact drawN_not_none v rng hpm hr n 0 _
  · rw [draw_none_iff, hpm]
    exact hr
  · rw [draw_series_values]
    exact drawN_all_none v rng hpm hr n 0 _

/-- C6 witness: concrete variables with prop_missing 0 and 1. -/
theorem draw_absent_marker_rule_witness :
    ((varNoMissing.draw (1/2) ()).1 ≠ none) ∧
    ((varNoMissing.draw_series (fun _ => "Float64") (fun _ => 1/2) 3 ()).1.values.all
        Option.isSome = true) ∧
    ((varAllMissing.draw (1/2) ()).1 = none) ∧
    ((varAllMissing.draw_series (fun _ => "Float64") (fun _ => 1/2) 3 ()).1.values.all
        Option.isNone = true) := by
  have H0 := draw_absent_marker_rule varNoMissing (1/2) () (fun _ => 1/2) 3
    (fun _ => "Float64")
  have H1 := draw_absent_marker_rule varAllMissing (1/2) () (fun _ => 1/2) 3
    (fun _ => "Float64")
  refine ⟨H0.2.2.1 rfl (by norm_num), ?_, H1.2.2.2.2.1 rfl (by norm_num), ?_⟩
  · rw [List.all_eq_true]
    intro x hx
    have hne := H0.2.2.2.1 rfl (fun i => by norm_num) x hx
    simpa [Option.isSome_iff_ne_none] using hne
  · rw [List.all_eq_true]
    intro x hx
    have heq := H1.2.2.2.2.2 rfl (fun i => by norm_num) x hx
    simp [heq]

/-- C7 (amended): draw_series resets the distribution draw state once,
before any draw, then draws exactly n values (the logged call trace is one
reset followed by n draws, and the output has exactly n values); the legacy
metasynth implementation casts the output to the recorded dtype, while the
metasyn implementation casts to Categorical exactly when the recorded dtype
is categorical and otherwise lets the dtype be inferred from the drawn
values. -/
theorem draw_series_contract {V S : Type} (v : MetaVar V S)
    (vl : Metasynth.MetaVarL V S) (infer : List (Option V) → String)
    (rng : ℕ → ℚ) (n : ℕ) (s s2 : S) (log : List String)
    (hr : ∀ i, 0 ≤ rng i) :
    ((v.draw_series infer rng n s).1.values.length = n) ∧
    (containsCategorical v.dtype = true →
       (v.draw_series infer rng n s).1.dtype = "Categorical") ∧
    (containsCategorical v.dtype = false →
       (v.draw_series infer rng n s).1.dtype =
         infer (v.draw_series infer rng n s).1.values) ∧
    ((vl.draw_series rng n s2).1.values.length = n) ∧
    ((vl.draw_series rng n s2).1.dtype = vl.dtype) ∧
    ((traceVar.draw_series (fun _ => "Int64") rng n log).2 =
       (log ++ ["reset"]) ++ List.replicate n "draw") := by
  refine ⟨?_, fun hcat => ?_, fun hcat => ?_, ?_, rfl, ?_⟩
  · rw [draw_series_values]
    exact drawN_length v rng n 0 _
  · simp [MetaVar.draw_series, hcat]
  · simp [MetaVar.draw_series, hcat]
  · rw [Metasynth.MetaVarL.draw_series]
    exact Metasynth.drawNL_length vl rng n 0 _
  · rw [MetaVar.draw_series]
    rw [if_neg (by decide)]
    exact traceVar_drawN_log rng hr n 0 (log ++ ["reset"])

/-- C7 witness: concrete calls of both implementations and of the logging
variable. -/
theorem draw_series_contract_witness :
    ((varNoMissing.draw_series (fun _ => "Float64") (fun _ => 1/2) 2 ()).1.values.length
       = 2) ∧
    ((legacyVar.draw_series (fun _ => 1/2) 2 ()).1.values.length = 2) ∧
    ((legacyVar.draw_series (fun _ => 1/2) 2 ()).1.dtype = legacyVar.dtype) ∧
    ((traceVar.draw_series (fun _ => "Int64") (fun _ => 1/2) 2 []).2 =
       ([] ++ ["reset"]) ++ List.replicate 2 "draw") ∧
    ((varNoMissing.draw_series (fun _ => "Float64") (fun _ => 1/2) 2 ()).1.dtype =
       (fun (_ : List (Option Unit)) => "Float64")
         (varNoMissing.draw_series (fun _ => "Float64") (fun _ => 1/2) 2 ()).1.values) := by
  have H := draw_series_contract varNoMissing legacyVar (fun _ => "Float64")
    (fun _ => 1/2) 2 () () [] (fun i => by norm_num)
  exact ⟨H.1, H.2.2.2.1, H.2.2.2.2.1, H.2.2.2.2.2, H.2.2.1 (by decide)⟩

/-- C7 counterexample: a variable recorded with storage type Int32 (not
categorical) draws plain integers, for which polars infers Int64, so the
output series dtype Int64 differs from the recorded dtype Int32 — the
output is not cast back to the recorded dtype. -/
theorem draw_series_dtype_not_preserved_cex :
    ((int32Var.draw_series inferInt64 (fun _ => 1/2) 1 ()).1.dtype = "Int64") ∧
    (int32Var.dtype = "Int32") ∧
    ("Int64" : String) ≠ "Int32" := by
  refine ⟨rfl, rfl, by decide⟩

/-- C8: MetaVar construction validates prop_missing immediately: a value
below -1e-8 or above 1+1e-8 raises ValueError at construction, and every
successfully constructed variable satisfies the bounds (and carries exactly
the prop_missing it was given). -/
theorem prop_missing_validated {V S : Type} (name var_type : String)
    (dist : Distribution V S) (dtype : String) (descr : Option String)
    (pm : ℚ) :
    ((pm < -(1 / 100000000) ∨ pm > 1 + 1 / 100000000) →
       MetaVar.make name var_type dist dtype descr pm =
         .error (.valueError ("Cannot create variable " ++ name ++
           " with proportion missing outside range [0, 1]"))) ∧
    (∀ v, MetaVar.make name var_type dist dtype descr pm = .ok v →
       -(1 / 100000000) ≤ v.prop_missing ∧ v.prop_missing ≤ 1 + 1 / 100000000 ∧
       v.prop_missing = pm) := by
  constructor
  · intro hbad
    rw [MetaVar.make, if_pos hbad]
  · intro v hok
    rw [MetaVar.make] at hok
    by_cases hbad : (pm < -(1 / 100000000) ∨ pm > 1 + 1 / 100000000)
    · rw [if_pos hbad] at hok
      cases hok
    · rw [if_neg hbad] at hok
      push_neg at hbad
      injection hok with h1
      subst h1
      exact ⟨hbad.1, hbad.2, rfl⟩

/-- C8 witness: construction with prop_missing 2 raises, construction with
prop_missing 1/4 succeeds within bounds. -/
theorem prop_missing_validated_witness :
    (MetaVar.make "p" "continuous" distNormal "Float64" none 2 =
       .error (.valueError ("Cannot create variable " ++ "p" ++
         " with proportion missing outside range [0, 1]"))) ∧
    (-(1 / 100000000 : ℚ) ≤ (1 / 4 : ℚ) ∧ (1 / 4 : ℚ) ≤ 1 + 1 / 100000000) := by
  have H1 := prop_missing_validated "p" "continuous" distNormal "Float64" none 2
  have H2 := prop_missing_validated (V := Unit) (S := Unit) "age" "continuous"
    distNormal "Float64" (some "d") (1/4)
  have hok := H2.2 ⟨"age", "continuous", distNormal, "Float64", some "d", 1/4⟩
    (by rw [MetaVar.make, if_neg (by push_neg; constructor <;> norm_num)])
  exact ⟨H1.1 (by norm_num), hok.1, hok.2.1⟩

end ClaimTheoremsMetasyn

section ClaimTheoremC2

open Metasyn

/-- C2: to_dict is a record with exactly the keys name, type, dtype,
prop_missing and distribution (the distribution record itself), plus
description exactly when one is set; and from_dict of to_dict reconstructs a
variable with the same name, var_type, dtype, prop_missing, description and
the same distribution parameters, provided the provider list resolves the
stored record to a distribution with equal parameters (the per-distribution
round-trip contract). -/
theorem metavar_dict_roundtrip {V S : Type} (v : MetaVar V S)
    (entries : List (ProviderEntry V S)) (d2 : Distribution V S)
    (hprov : providerListFromDict entries v.var_type v.distribution.to_dict = .ok d2)
    (hparams : d2.to_dict.parameters = v.distribution.to_dict.parameters)
    (hrange : -(1 / 100000000) ≤ v.prop_missing ∧
       v.prop_missing ≤ 1 + 1 / 100000000) :
    ((v.to_dict).map Prod.fst =
       ["name", "type", "dtype", "prop_missing", "distribution"] ++
         (if v.description.isSome then ["description"] else [])) ∧
    (lookupVal v.to_dict "distribution" = some (.vdist v.distribution.to_dict)) ∧
    (∃ v2 : MetaVar V S,
       MetaVar.from_dict entries v.to_dict = .ok v2 ∧
       v2.name = v.name ∧ v2.var_type = v.var_type ∧ v2.dtype = v.dtype ∧
       v2.prop_missing = v.prop_missing ∧ v2.description = v.description ∧
       v2.distribution.to_dict.parameters = v.distribution.to_dict.parameters) := by
  have hname : lookupVal v.to_dict "name" = some (.vstr v.name) := rfl
  have htype : lookupVal v.to_dict "type" = some (.vstr v.var_type) := rfl
  have hdtype : lookupVal v.to_dict "dtype" = some (.vstr v.dtype) := rfl
  have hpm : lookupVal v.to_dict "prop_missing" = some (.vnum v.prop_missing) := rfl
  have hdist : lookupVal v.to_dict "distribution" =
      some (.vdist v.distribution.to_dict) := rfl
  have hcond : ¬ (v.prop_missing < -(1 / 100000000) ∨
      v.prop_missing > 1 + 1 / 100000000) := by
    rintro (hlt | hgt)
    · exact absurd hrange.1 (not_le.mpr hlt)
    · exact absurd hrange.2 (not_le.mpr hgt)
  refine ⟨?_, hdist, ?_⟩
  · cases hd : v.description <;> simp [MetaVar.to_dict, hd]
  · cases hd : v.description with
    | none =>
      have hdesc : lookupVal v.to_dict "description" = none := by
        rw [lookupVal, MetaVar.to_dict, hd]
        rfl
      refine ⟨⟨v.name, v.var_type, d2, v.dtype, none, v.prop_missing⟩,
        ?_, rfl, rfl, rfl, rfl, rfl, hparams⟩
      simp only [MetaVar.from_dict, hname, htype, hdtype, hpm, hdist, hprov, hdesc]
      rw [MetaVar.make, if_neg hcond]
    | some descr =>
      have hdesc : lookupVal v.to_dict "description" = some (.vstr descr) := by
        rw [lookupVal, MetaVar.to_dict, hd]
        rfl
      refine ⟨⟨v.name, v.var_type, d2, v.dtype, some descr, v.prop_missing⟩,
        ?_, rfl, rfl, rfl, rfl, rfl, hparams⟩
      simp only [MetaVar.from_dict, hname, htype, hdtype, hpm, hdist, hprov, hdesc]
      rw [MetaVar.make, if_neg hcond]

/-- C2 witness: a concrete variable with a description, round-tripped
through a one-entry provider list. -/
theorem metavar_dict_roundtrip_witness :
    ((varAge.to_dict).map Prod.fst =
       ["name", "type", "dtype", "prop_missing", "distribution"] ++
         (if varAge.description.isSome then ["description"] else [])) ∧
    ((MetaVar.from_dict [entryNormal] varAge.to_dict).map
        (fun v2 => (v2.name, v2.var_type, v2.dtype, v2.prop_missing, v2.description,
                    v2.distribution.to_dict.parameters)) =
      .ok ("age", "continuous", "Float64", 1/4, some "age of the passenger",
           [("mean", (1 : ℚ)/2), ("sd", 2)])) := by
  have H := metavar_dict_roundtrip varAge [entryNormal] distNormal rfl rfl
    ⟨by norm_num [varAge], by norm_num [varAge]⟩
  obtain ⟨v2, he, h1, h2, h3, h4, h5, h6⟩ := H.2.2
  refine ⟨H.1, ?_⟩
  rw [he]
  simp only [Except.map, h1, h2, h3, h4, h5, h6]
  rfl

end ClaimTheoremC2
